import Mathlib

/-!
Shallow embedding of `websocket-async-io` (`src/lib.rs`): an adapter exposing
`AsyncRead`/`AsyncBufRead`/`AsyncWrite` over a websocket. The inbound side is a
bounded mpsc channel of byte chunks (`read_rx : Receiver<Uint8Array>`) plus a
carry-over buffer (`remaining : Vec<u8>`); the outbound side forwards whole
buffers to `WebSocket::send_with_u8_array`.

Bytes are modelled as `Nat` (no byte arithmetic occurs in the source), a
`Uint8Array` chunk as `List Nat`, and `Vec<u8>` as `List Nat`. The mpsc
receiver is modelled by the list of chunks it will yield, in FIFO order, plus
a flag recording whether the sender side has been dropped (closed):
`Stream::poll_next` returns `Ready(Some(chunk))` when a chunk is queued,
`Ready(None)` when the channel is closed and empty, and `Pending` otherwise.
Rust panics (`unwrap` on `None`, out-of-bounds `drain`) are modelled as
`Option.none` results.
-/

/-- Model of `std::task::Poll`. -/
inductive Poll (α : Type) where
  | ready (value : α)
  | pending
deriving DecidableEq, Repr

/-- Model of the `futures_channel::mpsc::Receiver<Uint8Array>` endpoint held in
`WebsocketReader.read_rx`: the queued chunks in delivery (FIFO) order, and
whether the producer side has permanently stopped (all senders dropped). -/
structure ChannelRx where
  queue : List (List Nat)
  closed : Bool
deriving DecidableEq, Repr

/-- Model of `Stream::poll_next` on the mpsc receiver: yields the oldest queued
chunk, `ready none` when the channel is closed and drained, `pending` when it
is empty but may still produce. -/
def ChannelRx.poll_next (rx : ChannelRx) : Poll (Option (List Nat)) × ChannelRx :=
  match rx.queue with
  | item :: rest => (Poll.ready (some item), ⟨rest, rx.closed⟩)
  | [] => if rx.closed then (Poll.ready none, rx) else (Poll.pending, rx)

/-- Model of `WebsocketReader` (src/lib.rs:41-44): the receiving end of the
chunk channel and the carry-over buffer `remaining`. -/
structure WebsocketReader where
  read_rx : ChannelRx
  remaining : List Nat
deriving DecidableEq, Repr

namespace WebsocketReader

/-- Model of `WebsocketReader::write_remaining` (src/lib.rs:121-141): copies
`min(remaining.len(), buf.len())` bytes of `remaining` into the caller's
buffer of length `bufLen` and drops them from `remaining`. Returns the bytes
written to the buffer and the updated reader. The three `Ordering` branches of
the source are kept. -/
def write_remaining (r : WebsocketReader) (bufLen : Nat) :
    List Nat × WebsocketReader :=
  match compare r.remaining.length bufLen with
  | Ordering.lt => (r.remaining, ⟨r.read_rx, []⟩)
  | Ordering.eq => (r.remaining, ⟨r.read_rx, []⟩)
  | Ordering.gt => (r.remaining.take bufLen, ⟨r.read_rx, r.remaining.drop bufLen⟩)

/-- Model of `<WebsocketReader as AsyncRead>::poll_read` (src/lib.rs:144-180)
with a caller buffer of length `bufLen`. Returns the bytes written into the
buffer (their count is the returned `usize`) and the updated reader. Note the
source maps `Poll::Ready(None)` from the channel — closed and empty — to
`Poll::Pending` (src/lib.rs:156). -/
def poll_read (r : WebsocketReader) (bufLen : Nat) :
    Poll (List Nat) × WebsocketReader :=
  if r.remaining = [] then
    match r.read_rx.poll_next with
    | (Poll.ready (some array), rx') =>
      match compare array.length bufLen with
      | Ordering.eq => (Poll.ready array, ⟨rx', r.remaining⟩)
      | Ordering.lt => (Poll.ready array, ⟨rx', r.remaining⟩)
      | Ordering.gt =>
        let withChunk : WebsocketReader := ⟨rx', array⟩
        let step := withChunk.write_remaining bufLen
        (Poll.ready step.1, step.2)
    | (Poll.ready none, rx') => (Poll.pending, ⟨rx', r.remaining⟩)
    | (Poll.pending, rx') => (Poll.pending, ⟨rx', r.remaining⟩)
  else
    let step := r.write_remaining bufLen
    (Poll.ready step.1, step.2)

/-- Model of `<WebsocketReader as AsyncBufRead>::poll_fill_buf`
(src/lib.rs:183-203). Returns the byte view handed to the caller and the
updated reader. As in `poll_read`, a closed-and-empty channel yields
`pending`; so does a dequeued empty chunk (src/lib.rs:199-201). -/
def poll_fill_buf (r : WebsocketReader) : Poll (List Nat) × WebsocketReader :=
  if r.remaining = [] then
    match r.read_rx.poll_next with
    | (Poll.ready (some array), rx') =>
      let rem := r.remaining ++ array
      if rem.length = 0 then (Poll.pending, ⟨rx', rem⟩)
      else (Poll.ready rem, ⟨rx', rem⟩)
    | (Poll.ready none, rx') => (Poll.pending, ⟨rx', r.remaining⟩)
    | (Poll.pending, rx') => (Poll.pending, ⟨rx', r.remaining⟩)
  else (Poll.ready r.remaining, r)

/-- Model of `<WebsocketReader as AsyncBufRead>::consume` (src/lib.rs:205-211):
removes the first `amt` bytes of `remaining`. `Vec::drain(0..amt)` panics when
`amt` exceeds the length, modelled as `none`. -/
def consume (r : WebsocketReader) (amt : Nat) : Option WebsocketReader :=
  if r.remaining.length = amt then some ⟨r.read_rx, []⟩
  else if amt ≤ r.remaining.length then some ⟨r.read_rx, r.remaining.drop amt⟩
  else none

end WebsocketReader

/-- All bytes still inside the reader, in the order the consumer will observe
them: the carry-over buffer followed by the queued chunks. -/
def streamContent (r : WebsocketReader) : List Nat :=
  r.remaining ++ r.read_rx.queue.flatten

/-- Repeated `poll_read` calls with the given caller buffer lengths, collecting
the byte slices returned by the `ready` reads (a `pending` poll hands no bytes
to the caller). -/
def readMany (bufLens : List Nat) (r : WebsocketReader) :
    List (List Nat) × WebsocketReader :=
  match bufLens with
  | [] => ([], r)
  | L :: rest =>
    match r.poll_read L with
    | (Poll.ready out, r') =>
      let tail := readMany rest r'
      (out :: tail.1, tail.2)
    | (Poll.pending, r') => readMany rest r'

/-- Model of the websocket handle as seen by the writer: the sequence of byte
buffers handed to the raw send primitive, in order. -/
structure WebSocket where
  sent : List (List Nat)
deriving DecidableEq, Repr

/-- Model of `WebSocket::send_with_u8_array`: the transport receives the whole
buffer as one message. -/
def WebSocket.send_with_u8_array (ws : WebSocket) (buf : List Nat) : WebSocket :=
  ⟨ws.sent ++ [buf]⟩

/-- Model of `WebsocketWriter` (src/lib.rs:45-47). -/
structure WebsocketWriter where
  ws : WebSocket
deriving DecidableEq, Repr

namespace WebsocketWriter

/-- Model of `<WebsocketWriter as AsyncWrite>::poll_write` (src/lib.rs:215-223):
sends the whole buffer and reports its full length, always `ready`. -/
def poll_write (w : WebsocketWriter) (buf : List Nat) :
    Poll Nat × WebsocketWriter :=
  (Poll.ready buf.length, ⟨w.ws.send_with_u8_array buf⟩)

/-- Model of `<WebsocketWriter as AsyncWrite>::poll_flush` (src/lib.rs:225-230):
immediate success, no state change. -/
def poll_flush (w : WebsocketWriter) : Poll Unit × WebsocketWriter :=
  (Poll.ready (), w)

end WebsocketWriter

/-- Model of the open-event sink (src/lib.rs:89-92):
`move |_| open_tx.take().unwrap().send(()).unwrap()`. The state is the
one-shot sender slot `open_tx : Option Unit` (`some ()` = sender still held).
The result is `some` the new slot state when the callback returns normally
(`some none`: the signal was fired and the sender consumed) and `none` when it
panics (`Option::take` already left `None`, so `.unwrap()` aborts). -/
def onopen_callback (open_tx : Option Unit) : Option (Option Unit) :=
  match open_tx with
  | some _ => some none
  | none => none

/-! ## Characterization lemmas -/

namespace WebsocketReader

/-- All three `Ordering` branches of `write_remaining` compute the same
take/drop split of the carry-over buffer at the caller buffer length. -/
theorem write_remaining_spec (r : WebsocketReader) (L : Nat) :
    r.write_remaining L = (r.remaining.take L, ⟨r.read_rx, r.remaining.drop L⟩) := by
  rcases Nat.lt_trichotomy r.remaining.length L with h | h | h
  · have hc : compare r.remaining.length L = Ordering.lt := Nat.compare_eq_lt.mpr h
    have h1 : r.remaining.take L = r.remaining :=
      List.take_of_length_le (Nat.le_of_lt h)
    have h2 : r.remaining.drop L = [] := List.drop_eq_nil_of_le (Nat.le_of_lt h)
    simp [write_remaining, hc, h1, h2]
  · have hc : compare r.remaining.length L = Ordering.eq := Nat.compare_eq_eq.mpr h
    have hle : r.remaining.length ≤ L := Nat.le_of_eq h
    simp [write_remaining, hc, List.take_of_length_le hle, List.drop_eq_nil_of_le hle]
  · have hc : compare r.remaining.length L = Ordering.gt := Nat.compare_eq_gt.mpr h
    simp [write_remaining, hc]

/-- `poll_read` on a non-empty carry-over buffer: drains `take L`, keeps
`drop L`, never touches the channel. -/
theorem poll_read_of_remaining (r : WebsocketReader) (L : Nat)
    (h : r.remaining ≠ []) :
    r.poll_read L = (Poll.ready (r.remaining.take L), ⟨r.read_rx, r.remaining.drop L⟩) := by
  simp [poll_read, h, write_remaining_spec]

/-- `poll_read` on an empty carry-over buffer with a queued chunk `c`: the
caller receives `c.take L` and the carry-over buffer ends as `c.drop L`,
uniformly over the three comparison branches of the source. -/
theorem poll_read_of_dequeue (c : List Nat) (rest : List (List Nat))
    (cl : Bool) (L : Nat) :
    poll_read ⟨⟨c :: rest, cl⟩, []⟩ L =
      (Poll.ready (c.take L), ⟨⟨rest, cl⟩, c.drop L⟩) := by
  rcases Nat.lt_trichotomy c.length L with h | h | h
  · have hc : compare c.length L = Ordering.lt := Nat.compare_eq_lt.mpr h
    have h1 : c.take L = c := List.take_of_length_le (Nat.le_of_lt h)
    have h2 : c.drop L = [] := List.drop_eq_nil_of_le (Nat.le_of_lt h)
    simp [poll_read, ChannelRx.poll_next, hc, h1, h2]
  · have hc : compare c.length L = Ordering.eq := Nat.compare_eq_eq.mpr h
    have hle : c.length ≤ L := Nat.le_of_eq h
    simp [poll_read, ChannelRx.poll_next, hc, List.take_of_length_le hle,
      List.drop_eq_nil_of_le hle]
  · have hc : compare c.length L = Ordering.gt := Nat.compare_eq_gt.mpr h
    simp [poll_read, ChannelRx.poll_next, hc, write_remaining_spec, write_remaining]

/-- `poll_read` on an empty carry-over buffer and an empty queue is `pending`
(whether or not the channel is closed), leaving the reader unchanged. -/
theorem poll_read_of_empty (cl : Bool) (L : Nat) :
    poll_read ⟨⟨[], cl⟩, []⟩ L = (Poll.pending, ⟨⟨[], cl⟩, []⟩) := by
  cases cl <;> simp [poll_read, ChannelRx.poll_next]

/-- A `ready` read conserves the byte stream: the bytes handed to the caller
followed by the bytes still inside the reader are the bytes that were inside
the reader before. -/
theorem poll_read_ready_conservation (r : WebsocketReader) (L : Nat)
    (out : List Nat) (r' : WebsocketReader)
    (h : r.poll_read L = (Poll.ready out, r')) :
    out ++ streamContent r' = streamContent r := by
  rcases r with ⟨⟨queue, cl⟩, rem⟩
  cases rem with
  | cons b bs =>
    rw [poll_read_of_remaining ⟨⟨queue, cl⟩, b :: bs⟩ L (by simp)] at h
    simp only [Prod.mk.injEq, Poll.ready.injEq] at h
    obtain ⟨h1, h2⟩ := h
    subst h1
    subst h2
    simp [streamContent, ← List.append_assoc, List.take_append_drop]
  | nil =>
    cases queue with
    | nil =>
      rw [poll_read_of_empty] at h
      simp at h
    | cons c rest =>
      rw [poll_read_of_dequeue] at h
      simp only [Prod.mk.injEq, Poll.ready.injEq] at h
      obtain ⟨h1, h2⟩ := h
      subst h1
      subst h2
      simp [streamContent, ← List.append_assoc, List.take_append_drop]

/-- A `pending` read leaves the reader unchanged. -/
theorem poll_read_pending_state (r : WebsocketReader) (L : Nat)
    (r' : WebsocketReader) (h : r.poll_read L = (Poll.pending, r')) :
    r' = r := by
  rcases r with ⟨⟨queue, cl⟩, rem⟩
  cases rem with
  | cons b bs =>
    rw [poll_read_of_remaining ⟨⟨queue, cl⟩, b :: bs⟩ L (by simp)] at h
    simp at h
  | nil =>
    cases queue with
    | nil =>
      rw [poll_read_of_empty] at h
      simp only [Prod.mk.injEq] at h
      exact h.2.symm
    | cons c rest =>
      rw [poll_read_of_dequeue] at h
      simp at h

end WebsocketReader

namespace WebsocketReader

/-- Every `ready` read hands out either a full caller buffer (the returned
slice has exactly the caller's length) or ends exactly at a chunk boundary
(the carry-over buffer is empty afterwards). -/
theorem poll_read_split_boundary (r : WebsocketReader) (L : Nat)
    (out : List Nat) (r' : WebsocketReader)
    (h : r.poll_read L = (Poll.ready out, r')) :
    out.length = L ∨ r'.remaining = [] := by
  rcases r with ⟨⟨queue, cl⟩, rem⟩
  cases rem with
  | cons b bs =>
    rw [poll_read_of_remaining ⟨⟨queue, cl⟩, b :: bs⟩ L (by simp)] at h
    simp only [Prod.mk.injEq, Poll.ready.injEq] at h
    obtain ⟨h1, h2⟩ := h
    subst h1
    subst h2
    rcases Nat.le_total (b :: bs).length L with hle | hle
    · exact Or.inr (by simp [List.drop_eq_nil_of_le hle])
    · exact Or.inl (by rw [List.length_take]; exact Nat.min_eq_left hle)
  | nil =>
    cases queue with
    | nil =>
      rw [poll_read_of_empty] at h
      simp at h
    | cons c rest =>
      rw [poll_read_of_dequeue] at h
      simp only [Prod.mk.injEq, Poll.ready.injEq] at h
      obtain ⟨h1, h2⟩ := h
      subst h1
      subst h2
      rcases Nat.le_total c.length L with hle | hle
      · exact Or.inr (by simp [List.drop_eq_nil_of_le hle])
      · exact Or.inl (by rw [List.length_take]; exact Nat.min_eq_left hle)

end WebsocketReader

/-- Conservation over any sequence of reads: the bytes handed out by the
`ready` reads, concatenated, followed by the bytes still inside the reader,
are exactly the bytes that were inside the reader at the start. -/
theorem readMany_conservation (bufLens : List Nat) (r : WebsocketReader) :
    (readMany bufLens r).1.flatten ++ streamContent (readMany bufLens r).2 =
      streamContent r := by
  induction bufLens generalizing r with
  | nil => simp [readMany]
  | cons L rest ih =>
    rcases hp : r.poll_read L with ⟨res, r'⟩
    cases res with
    | ready out =>
      have step := WebsocketReader.poll_read_ready_conservation r L out r' hp
      simp only [readMany, hp, List.flatten_cons, List.append_assoc]
      rw [ih r', step]
    | pending =>
      have step := WebsocketReader.poll_read_pending_state r L r' hp
      simp only [readMany, hp]
      rw [step]
      exact ih r

namespace WebsocketReader

/-- `poll_fill_buf` on a non-empty carry-over buffer returns it unchanged. -/
theorem poll_fill_buf_of_remaining (r : WebsocketReader) (h : r.remaining ≠ []) :
    r.poll_fill_buf = (Poll.ready r.remaining, r) := by
  simp [poll_fill_buf, h]

/-- `poll_fill_buf` on an empty carry-over buffer with a non-empty queued
chunk `c`: dequeues `c` into the carry-over buffer and returns it. -/
theorem poll_fill_buf_of_dequeue (c : List Nat) (rest : List (List Nat))
    (cl : Bool) (hc : c ≠ []) :
    poll_fill_buf ⟨⟨c :: rest, cl⟩, []⟩ = (Poll.ready c, ⟨⟨rest, cl⟩, c⟩) := by
  simp [poll_fill_buf, ChannelRx.poll_next, List.length_eq_zero, hc]

/-- `poll_fill_buf` on an empty carry-over buffer with a queued zero-length
chunk: dequeues it and reports `pending` (src/lib.rs:199-201). -/
theorem poll_fill_buf_of_empty_chunk (rest : List (List Nat)) (cl : Bool) :
    poll_fill_buf ⟨⟨[] :: rest, cl⟩, []⟩ = (Poll.pending, ⟨⟨rest, cl⟩, []⟩) := by
  simp [poll_fill_buf, ChannelRx.poll_next]

/-- `poll_fill_buf` on an empty carry-over buffer and empty queue is `pending`
whether or not the channel is closed. -/
theorem poll_fill_buf_of_empty (cl : Bool) :
    poll_fill_buf ⟨⟨[], cl⟩, []⟩ = (Poll.pending, ⟨⟨[], cl⟩, []⟩) := by
  cases cl <;> simp [poll_fill_buf, ChannelRx.poll_next]

end WebsocketReader

/-! ## Claim theorems -/

/-- Claim C1: for every sequence of delivered chunks and every sequence of
reads with arbitrary buffer lengths, the concatenation of the returned byte
slices, followed by what is still inside the reader, is exactly the
concatenation of the chunks — no bytes dropped, duplicated, or reordered; when
the reader is drained the outputs concatenate to exactly the chunk
concatenation; and every single read splits the stream only at the caller's
buffer length or at a chunk boundary (carry-over left empty). -/
theorem read_reassembles_chunk_stream (chunks : List (List Nat))
    (bufLens : List Nat) (cl : Bool) :
    (readMany bufLens ⟨⟨chunks, cl⟩, []⟩).1.flatten ++
        streamContent (readMany bufLens ⟨⟨chunks, cl⟩, []⟩).2 = chunks.flatten
  ∧ (streamContent (readMany bufLens ⟨⟨chunks, cl⟩, []⟩).2 = [] →
      (readMany bufLens ⟨⟨chunks, cl⟩, []⟩).1.flatten = chunks.flatten)
  ∧ (∀ (s : WebsocketReader) (L : Nat) (out : List Nat) (s' : WebsocketReader),
      s.poll_read L = (Poll.ready out, s') → out.length = L ∨ s'.remaining = []) := by
  refine ⟨?_, ?_, fun s L out s' h =>
    WebsocketReader.poll_read_split_boundary s L out s' h⟩
  · have hcons := readMany_conservation bufLens ⟨⟨chunks, cl⟩, []⟩
    simpa [streamContent] using hcons
  · intro hdr
    have hcons := readMany_conservation bufLens ⟨⟨chunks, cl⟩, []⟩
    rw [hdr, List.append_nil] at hcons
    simpa [streamContent] using hcons

/-- Witness for C1 at a concrete run: three chunks read through caller buffers
of length 4 drain the reader and reproduce the chunk concatenation. -/
theorem read_reassembles_chunk_stream_witness :
    streamContent (readMany [4, 4, 4, 4]
        ⟨⟨[[1, 2, 3], [4], [5, 6, 7, 8, 9]], false⟩, []⟩).2 = [] ∧
    (readMany [4, 4, 4, 4]
        ⟨⟨[[1, 2, 3], [4], [5, 6, 7, 8, 9]], false⟩, []⟩).1.flatten =
      ([[1, 2, 3], [4], [5, 6, 7, 8, 9]] : List (List Nat)).flatten :=
  ⟨by decide,
   (read_reassembles_chunk_stream [[1, 2, 3], [4], [5, 6, 7, 8, 9]]
      [4, 4, 4, 4] false).2.1 (by decide)⟩

/-- Claim C2: a read with empty carry-over that dequeues a chunk `c` against a
caller buffer of length `L`: if `c.length = L` it returns the whole chunk and
the carry-over stays empty; if `c.length < L` it is a short read of exactly
`c.length` bytes, carry-over empty; if `c.length > L` the caller receives the
first `L` bytes and the carry-over ends holding exactly the remaining
`c.length - L` bytes in order. -/
theorem poll_read_chunk_dequeue_cases (c : List Nat) (rest : List (List Nat))
    (cl : Bool) (L : Nat) :
    (c.length = L →
      WebsocketReader.poll_read ⟨⟨c :: rest, cl⟩, []⟩ L =
        (Poll.ready c, ⟨⟨rest, cl⟩, []⟩))
  ∧ (c.length < L →
      WebsocketReader.poll_read ⟨⟨c :: rest, cl⟩, []⟩ L =
        (Poll.ready c, ⟨⟨rest, cl⟩, []⟩))
  ∧ (L < c.length →
      WebsocketReader.poll_read ⟨⟨c :: rest, cl⟩, []⟩ L =
          (Poll.ready (c.take L), ⟨⟨rest, cl⟩, c.drop L⟩)
        ∧ (c.take L).length = L
        ∧ (c.drop L).length = c.length - L
        ∧ c.take L ++ c.drop L = c) := by
  refine ⟨?_, ?_, ?_⟩
  · intro h
    have hle : c.length ≤ L := Nat.le_of_eq h
    have := WebsocketReader.poll_read_of_dequeue c rest cl L
    rw [List.take_of_length_le hle, List.drop_eq_nil_of_le hle] at this
    exact this
  · intro h
    have hle : c.length ≤ L := Nat.le_of_lt h
    have := WebsocketReader.poll_read_of_dequeue c rest cl L
    rw [List.take_of_length_le hle, List.drop_eq_nil_of_le hle] at this
    exact this
  · intro h
    refine ⟨WebsocketReader.poll_read_of_dequeue c rest cl L, ?_, ?_, ?_⟩
    · rw [List.length_take]
      exact Nat.min_eq_left (Nat.le_of_lt h)
    · exact List.length_drop L c
    · exact List.take_append_drop L c

/-- Witness for C2: dequeuing the chunk `[5,6,7]` against a 2-byte buffer
returns `[5,6]` and leaves `[7]` in the carry-over buffer. -/
theorem poll_read_chunk_dequeue_cases_witness :
    2 < ([5, 6, 7] : List Nat).length ∧
    WebsocketReader.poll_read ⟨⟨[[5, 6, 7]], false⟩, []⟩ 2 =
      (Poll.ready [5, 6], ⟨⟨[], false⟩, [7]⟩) :=
  ⟨by decide,
   ((poll_read_chunk_dequeue_cases [5, 6, 7] [] false 2).2.2 (by decide)).1⟩

/-- Claim C3: a read made while the carry-over buffer is non-empty completes
`ready` without touching the channel: it hands out the first
`min(len(carry), L)` carry-over bytes and leaves exactly the remaining suffix
(empty whenever `len(carry) ≤ L`). -/
theorem poll_read_carryover_path (r : WebsocketReader) (L : Nat)
    (h : r.remaining ≠ []) :
    r.poll_read L =
        (Poll.ready (r.remaining.take L), ⟨r.read_rx, r.remaining.drop L⟩)
  ∧ (r.remaining.take L).length = min r.remaining.length L
  ∧ (r.remaining.length ≤ L → r.remaining.drop L = []) := by
  refine ⟨WebsocketReader.poll_read_of_remaining r L h, ?_,
    fun hle => List.drop_eq_nil_of_le hle⟩
  rw [List.length_take, Nat.min_comm]

/-- Witness for C3: carry-over `[1,2,3]` against a 2-byte buffer. -/
theorem poll_read_carryover_path_witness :
    ([1, 2, 3] : List Nat) ≠ [] ∧
    WebsocketReader.poll_read ⟨⟨[], false⟩, [1, 2, 3]⟩ 2 =
      (Poll.ready [1, 2], ⟨⟨[], false⟩, [3]⟩) :=
  ⟨by decide,
   (poll_read_carryover_path ⟨⟨[], false⟩, [1, 2, 3]⟩ 2 (by decide)).1⟩

/-- Claim C4: carry-over discipline. While the carry-over buffer is non-empty,
neither `poll_read` nor `poll_fill_buf` touches the channel (no dequeue);
`consume` never touches the channel; and starting from an empty carry-over
buffer, the carry-over after a read or a buffered fill is always a suffix of
the single chunk at the head of the queue — at most one chunk's remainder is
ever held. -/
theorem carryover_discipline (queue : List (List Nat)) (cl : Bool)
    (rem : List Nat) (L amt : Nat) :
    (rem ≠ [] →
      (WebsocketReader.poll_read ⟨⟨queue, cl⟩, rem⟩ L).2.read_rx = ⟨queue, cl⟩ ∧
      (WebsocketReader.poll_fill_buf ⟨⟨queue, cl⟩, rem⟩).2.read_rx = ⟨queue, cl⟩)
  ∧ (∀ r2 : WebsocketReader,
      WebsocketReader.consume ⟨⟨queue, cl⟩, rem⟩ amt = some r2 →
      r2.read_rx = ⟨queue, cl⟩)
  ∧ (rem = [] →
      (WebsocketReader.poll_read ⟨⟨queue, cl⟩, rem⟩ L).2.remaining <:+
        queue.headD [] ∧
      (WebsocketReader.poll_fill_buf ⟨⟨queue, cl⟩, rem⟩).2.remaining <:+
        queue.headD []) := by
  refine ⟨?_, ?_, ?_⟩
  · intro h
    constructor
    · rw [WebsocketReader.poll_read_of_remaining ⟨⟨queue, cl⟩, rem⟩ L h]
    · rw [WebsocketReader.poll_fill_buf_of_remaining ⟨⟨queue, cl⟩, rem⟩ h]
  · intro r2 h2
    unfold WebsocketReader.consume at h2
    split_ifs at h2 with h3 h4
    · have := Option.some.inj h2
      rw [← this]
    · have := Option.some.inj h2
      rw [← this]
  · intro h
    subst h
    cases queue with
    | nil =>
      rw [WebsocketReader.poll_read_of_empty, WebsocketReader.poll_fill_buf_of_empty]
      exact ⟨List.nil_suffix, List.nil_suffix⟩
    | cons c rest =>
      constructor
      · rw [WebsocketReader.poll_read_of_dequeue]
        exact List.drop_suffix L c
      · by_cases hc : c = []
        · subst hc
          rw [WebsocketReader.poll_fill_buf_of_empty_chunk]
          exact List.nil_suffix
        · rw [WebsocketReader.poll_fill_buf_of_dequeue c rest cl hc]
          exact List.suffix_refl c

/-- Witness for C4: with carry-over `[1]` and a queued chunk `[9]`, a read and
a buffered fill leave the channel untouched. -/
theorem carryover_discipline_witness :
    ([1] : List Nat) ≠ [] ∧
    ((WebsocketReader.poll_read ⟨⟨[[9]], false⟩, [1]⟩ 1).2.read_rx =
        ⟨[[9]], false⟩ ∧
     (WebsocketReader.poll_fill_buf ⟨⟨[[9]], false⟩, [1]⟩).2.read_rx =
        ⟨[[9]], false⟩) :=
  ⟨by decide, (carryover_discipline [[9]] false [1] 1 0).1 (by decide)⟩

/-- Claim C5: `fill_buffer` is idempotent — if a buffered fill returns the
view `v` with resulting reader `r'`, a second buffered fill on `r'` (no
`consume` in between) returns the same view `v` and the same reader `r'`,
dequeuing nothing. -/
theorem fill_buffer_idempotent (r r' : WebsocketReader) (v : List Nat)
    (h : r.poll_fill_buf = (Poll.ready v, r')) :
    r'.poll_fill_buf = (Poll.ready v, r') := by
  have key : r'.remaining = v ∧ v ≠ [] := by
    rcases r with ⟨⟨queue, cl⟩, rem⟩
    cases rem with
    | cons b bs =>
      rw [WebsocketReader.poll_fill_buf_of_remaining ⟨⟨queue, cl⟩, b :: bs⟩
        (by simp)] at h
      simp only [Prod.mk.injEq, Poll.ready.injEq] at h
      obtain ⟨h1, h2⟩ := h
      subst h1
      subst h2
      exact ⟨rfl, by simp⟩
    | nil =>
      cases queue with
      | nil =>
        rw [WebsocketReader.poll_fill_buf_of_empty] at h
        simp at h
      | cons c rest =>
        by_cases hc : c = []
        · subst hc
          rw [WebsocketReader.poll_fill_buf_of_empty_chunk] at h
          simp at h
        · rw [WebsocketReader.poll_fill_buf_of_dequeue c rest cl hc] at h
          simp only [Prod.mk.injEq, Poll.ready.injEq] at h
          obtain ⟨h1, h2⟩ := h
          subst h1
          subst h2
          exact ⟨rfl, hc⟩
  obtain ⟨h1, h2⟩ := key
  have hne : r'.remaining ≠ [] := by rw [h1]; exact h2
  rw [WebsocketReader.poll_fill_buf_of_remaining r' hne, h1]

/-- Witness for C5: filling from the chunk `[3,4]` and filling again returns
the same view `[3,4]` and the same reader. -/
theorem fill_buffer_idempotent_witness :
    WebsocketReader.poll_fill_buf ⟨⟨[[3, 4]], false⟩, []⟩ =
      (Poll.ready [3, 4], ⟨⟨[], false⟩, [3, 4]⟩) ∧
    WebsocketReader.poll_fill_buf ⟨⟨[], false⟩, [3, 4]⟩ =
      (Poll.ready [3, 4], ⟨⟨[], false⟩, [3, 4]⟩) :=
  ⟨by decide,
   fill_buffer_idempotent ⟨⟨[[3, 4]], false⟩, []⟩ ⟨⟨[], false⟩, [3, 4]⟩ [3, 4]
     (by decide)⟩

/-- Claim C6: `consume(n)` with `n ≤ len(carry)` removes exactly the first `n`
carry-over bytes, leaving the rest in order; with `n = len(carry)` (the length
a previous `fill_buffer` returned) it empties the carry-over completely; with
`n > len(carry)` it is a precondition violation (panic, modelled `none`), not
a recoverable error. -/
theorem consume_removes_front (r : WebsocketReader) (n : Nat) :
    (n ≤ r.remaining.length →
      r.consume n = some ⟨r.read_rx, r.remaining.drop n⟩)
  ∧ (n = r.remaining.length → r.consume n = some ⟨r.read_rx, []⟩)
  ∧ (r.remaining.length < n → r.consume n = none) := by
  refine ⟨?_, ?_, ?_⟩
  · intro h
    unfold WebsocketReader.consume
    split_ifs with h1 h2
    · rw [← h1, List.drop_length]
    · rfl
  · intro h
    unfold WebsocketReader.consume
    split_ifs with h1 h2
    · rfl
    · exact absurd h.symm h1
    · exact absurd h.symm h1
  · intro h
    unfold WebsocketReader.consume
    split_ifs with h1 h2
    · exact absurd h1 (by omega)
    · exact absurd h2 (by omega)
    · rfl

/-- Witness for C6: consuming 2 of `[1,2,3]` leaves `[3]`; consuming 3 empties
the carry-over; consuming 4 is the modelled panic. -/
theorem consume_removes_front_witness :
    (2 ≤ ([1, 2, 3] : List Nat).length ∧
      WebsocketReader.consume ⟨⟨[], false⟩, [1, 2, 3]⟩ 2 =
        some ⟨⟨[], false⟩, [3]⟩) ∧
    WebsocketReader.consume ⟨⟨[], false⟩, [1, 2, 3]⟩ 3 =
      some ⟨⟨[], false⟩, []⟩ :=
  ⟨⟨by decide, (consume_removes_front ⟨⟨[], false⟩, [1, 2, 3]⟩ 2).1 (by decide)⟩,
   (consume_removes_front ⟨⟨[], false⟩, [1, 2, 3]⟩ 3).2.1 (by decide)⟩

/-- Claim C7 (evaluated at the failing input): with the carry-over buffer
empty, a read on a closed-and-empty channel returns `pending` — exactly the
same outcome as on an empty-but-open channel — instead of a designated
end-of-stream outcome; `poll_fill_buf` behaves the same way. This is the
conflation of `Poll::Ready(None)` with `Poll::Pending` at src/lib.rs:156 and
src/lib.rs:193. -/
theorem poll_read_closed_empty_conflated :
    WebsocketReader.poll_read ⟨⟨[], true⟩, []⟩ 4 =
      (Poll.pending, ⟨⟨[], true⟩, []⟩)
  ∧ WebsocketReader.poll_read ⟨⟨[], false⟩, []⟩ 4 =
      (Poll.pending, ⟨⟨[], false⟩, []⟩)
  ∧ WebsocketReader.poll_fill_buf ⟨⟨[], true⟩, []⟩ =
      (Poll.pending, ⟨⟨[], true⟩, []⟩) := by
  refine ⟨by decide, by decide, by decide⟩

/-- Claim C8, counterexample to "subsequent firings are ignored, not an
error": after the first firing consumes the one-shot sender
(`open_tx.take()` leaves `None`), a second invocation of the open-event
callback hits `.unwrap()` on `None` and aborts (modelled `none`), rather than
being ignored. -/
theorem onopen_refire_counterexample :
    onopen_callback (some ()) = some none ∧ onopen_callback none = none := by
  exact ⟨rfl, rfl⟩

/-- Claim C8 as amended: the open-event sink fires the Readiness Signal on its
first invocation, consuming the one-shot sender; any subsequent invocation
panics on `unwrap` of the emptied slot (aborts) instead of being ignored. -/
theorem onopen_fires_once_then_aborts (tx : Unit) :
    onopen_callback (some tx) = some none ∧ onopen_callback none = none :=
  ⟨rfl, rfl⟩

/-- Claim C9: `poll_write` always completes synchronously (`ready`), hands the
entire buffer to the transport's send primitive as one message, and reports
the full buffer length as written; `poll_flush` is an immediate no-op
success. -/
theorem poll_write_synchronous_full (w : WebsocketWriter) (buf : List Nat) :
    w.poll_write buf = (Poll.ready buf.length, ⟨⟨w.ws.sent ++ [buf]⟩⟩)
  ∧ w.poll_flush = (Poll.ready (), w) :=
  ⟨rfl, rfl⟩

/-- Claim C10: with an empty carry-over buffer and a zero-length chunk at the
head of the queue, `poll_read` with a non-empty caller buffer returns
`ready` with zero bytes — the conventional end-of-stream signal — while the
stream has not ended; `poll_fill_buf` in the same state instead reports
`pending` (src/lib.rs:199-201). -/
theorem empty_chunk_read_zero_fill_pending (rest : List (List Nat)) (cl : Bool)
    (L : Nat) (hL : 0 < L) :
    WebsocketReader.poll_read ⟨⟨[] :: rest, cl⟩, []⟩ L =
      (Poll.ready [], ⟨⟨rest, cl⟩, []⟩)
  ∧ WebsocketReader.poll_fill_buf ⟨⟨[] :: rest, cl⟩, []⟩ =
      (Poll.pending, ⟨⟨rest, cl⟩, []⟩) := by
  constructor
  · have := WebsocketReader.poll_read_of_dequeue [] rest cl L
    simpa using this
  · exact WebsocketReader.poll_fill_buf_of_empty_chunk rest cl

/-- Witness for C10: a zero-length chunk ahead of `[7]` read with a 4-byte
buffer yields a zero-byte `ready` read, while `poll_fill_buf` is `pending`. -/
theorem empty_chunk_read_zero_fill_pending_witness :
    0 < 4 ∧
    (WebsocketReader.poll_read ⟨⟨[[], [7]], false⟩, []⟩ 4 =
        (Poll.ready [], ⟨⟨[[7]], false⟩, []⟩)
      ∧ WebsocketReader.poll_fill_buf ⟨⟨[[], [7]], false⟩, []⟩ =
        (Poll.pending, ⟨⟨[[7]], false⟩, []⟩)) :=
  ⟨by decide, empty_chunk_read_zero_fill_pending [[7]] false 4 (by decide)⟩
